import Mathlib

/-!
Verification of the srss solar-report scraper against its specification.

The Rust sources are shallowly embedded: the data model (`model.rs`), the
textual rendering of records, the export pipeline (`exporter.rs`), the
bounded report channel (`main.rs`), the retry primitive and its call sites
(`scraper/components.rs`), and the navigation driver (`scraper.rs`).
Web-driver effects are abstracted as per-step outcome oracles; the control
flow around them is translated faithfully from the source.
-/

namespace Srss

/-- Station from `model.rs`: `{id, name}`. -/
structure Station where
  id : String
  name : String
deriving DecidableEq

/-- Rust `impl PartialEq for Station` compares by `id` alone. -/
def Station.eqById (a b : Station) : Bool :=
  a.id == b.id

/-- Record from `model.rs`: `pv_yield : Option<f64>`.  The `f64` yield is
modelled as a rational number; the values occurring in reports are short
terminating decimals, for which this is exact. -/
structure Record where
  date : String
  pv_yield : Option ℚ
deriving DecidableEq

/-- Report from `model.rs`. -/
structure Report where
  station : Station
  records : List Record
deriving DecidableEq

/-- Decimal digits of the fractional part `n / d` (with `n < d`), stopping
when the remainder reaches zero; fuel-bounded. -/
def decDigits : ℕ → ℕ → ℕ → List ℕ
  | 0, _, _ => []
  | _ + 1, 0, _ => []
  | f + 1, n, d => (n * 10 / d) :: decDigits f (n * 10 % d) d

/-- Rendering of a yield value, modelling Rust `f64::to_string` on the
terminating decimals in scope (e.g. `12.5 ↦ "12.5"`, `0 ↦ "0"`). -/
def ratToString (q : ℚ) : String :=
  let sign := if q.num < 0 then "-" else ""
  let n := q.num.natAbs
  let d := q.den
  let ip := n / d
  let ds := decDigits 20 (n % d) d
  sign ++ toString ip ++ (if ds = [] then "" else "." ++ String.join (ds.map toString))

/-- Record.fmt_yield from `model.rs`: absent yield renders as the literal
"0", a present yield via its numeric rendering. -/
def Record.fmt_yield (r : Record) : String :=
  match r.pv_yield with
  | none => "0"
  | some v => ratToString v

/-- Rust `impl Display for Record`: `[date]: value`. -/
def Record.display (r : Record) : String :=
  "[" ++ r.date ++ "]: " ++ r.fmt_yield

/-- Record.to_value from `model.rs`. -/
def Record.to_value (r : Record) : String :=
  r.fmt_yield

/-- Record.to_csv from `model.rs`: `date; value`. -/
def Record.to_csv (r : Record) : String :=
  r.date ++ "; " ++ r.fmt_yield

/-- to_line from `exporter.rs`: append a newline to a formatted record. -/
def to_line (format : Record → String) (r : Record) : String :=
  format r ++ "\n"

/-- Drop the extension of a file name, following Rust `Path::with_extension`
semantics: remove everything after the last dot, unless the only dot is the
leading character (hidden-file rule) or there is no dot at all. -/
def dropExt (name : String) : String :=
  let r := name.toList.reverse
  match r.dropWhile (fun c => c ≠ '.') with
  | [] => name
  | [_] => name
  | _ :: rest => String.mk rest.reverse

/-- Destination path used by `export_to_file` in `exporter.rs`:
`directory.join(&report.station.name).with_extension(extension)`.  The path
depends on the station's display name only, never on its id. -/
def filePath (directory ext : String) (s : Station) : String :=
  directory ++ "/" ++ dropExt s.name ++ "." ++ ext

/-- Content written for one report by `write_report` in `exporter.rs`: each
record formatted and newline-terminated, in record order. -/
def reportContent (format : Record → String) (rep : Report) : String :=
  String.join (rep.records.map (to_line format))

/-- Overwriting file write: `File::create` truncates an existing file, so a
later write to the same path replaces the earlier content. -/
def writeFs (fs : String → Option String) (p c : String) : String → Option String :=
  fun q => if q = p then some c else fs q

/-- Result of running the export consumer: the file system produced, the
reports whose write was started, and the aggregate result. -/
structure ExportRun where
  fs : String → Option String
  attempted : List Report
  result : Except String Unit

/-- Core of `export_to_file` from `exporter.rs`.  The stream combinator
chain `then(spawn(write_report)) ... try_collect` pulls one report at a
time, awaits its (spawned) write, and short-circuits on the first write
error: later reports are then never pulled from the channel.  `writeResult`
is the outcome oracle for each report's write; a failing write's partial
file content is not modelled. -/
def exportAux (writeResult : Report → Except String Unit) (format : Record → String)
    (directory ext : String) (fs : String → Option String) :
    List Report → ExportRun
  | [] => ⟨fs, [], .ok ()⟩
  | rep :: rest =>
    let dest := filePath directory ext rep.station
    match writeResult rep with
    | .error e => ⟨fs, [rep], .error e⟩
    | .ok () =>
      let r := exportAux writeResult format directory ext
        (writeFs fs dest (reportContent format rep)) rest
      ⟨r.fs, rep :: r.attempted, r.result⟩

/-- export_to_file from `exporter.rs`: the output directory is wiped and
recreated (empty initial file system), then the report stream is consumed. -/
def export_to_file (writeResult : Report → Except String Unit) (format : Record → String)
    (directory ext : String) (reports : List Report) : ExportRun :=
  exportAux writeResult format directory ext (fun _ => none) reports

/-- Capacity of the report channel created in `main.rs`:
`tokio_mpsc::channel(20)`. -/
def channelCapacity : ℕ := 20

/-- Bounded-queue send: succeeds (appending) while fewer than
`channelCapacity` items are queued, otherwise the sender blocks (`none`). -/
def trySend (q : List Report) (r : Report) : Option (List Report) :=
  if q.length < channelCapacity then some (q ++ [r]) else none

/-- Send a whole batch with no concurrent consumption; `none` when some
emission blocks. -/
def sendAll (q : List Report) : List Report → Option (List Report)
  | [] => some q
  | r :: rs =>
    match trySend q r with
    | none => none
    | some q2 => sendAll q2 rs

/-- Consumer receive: removes the front item of the queue. -/
def recv (q : List Report) : Option (Report × List Report) :=
  match q with
  | [] => none
  | x :: rest => some (x, rest)

/-- Outcome of one retried attempt, the `{Continue, Break, Fatal}` contract
of §4.2 of the spec (Rust `Result<ControlFlow<T>>` at the call sites). -/
inductive RetryOutcome (α ε : Type) where
  | Continue : RetryOutcome α ε
  | Break (v : α) : RetryOutcome α ε
  | Fatal (e : ε) : RetryOutcome α ε
deriving DecidableEq

/-- Error produced by the retry primitive: either the distinct
retry-budget-exhausted error (carrying the loop's description) or a fatal
error propagated from the attempt. -/
inductive RetryError (ε : Type) where
  | exhausted (description : String) : RetryError ε
  | fatal (e : ε) : RetryError ε
deriving DecidableEq

/-- Recursion core of the retry primitive.  `k` is the index of the next
attempt, the fuel is the remaining attempt budget; the second component of
the result counts how many times `attempt` was invoked. -/
def retryAux (attempt : ℕ → RetryOutcome α ε) (description : String) :
    ℕ → ℕ → Except (RetryError ε) α × ℕ
  | _, 0 => (.error (.exhausted description), 0)
  | k, fuel + 1 =>
    match attempt k with
    | .Break v => (.ok v, 1)
    | .Fatal e => (.error (.fatal e), 1)
    | .Continue =>
      let r := retryAux attempt description (k + 1) fuel
      (r.1, r.2 + 1)

/-- Modelled from the spec: `retry_loop` is imported from `crate::scraper`
by `components.rs` and called at five sites, but its definition is not
under `src/`.  Following §4.2 and §9 of the spec it re-invokes the attempt
on `Continue`, returns the value immediately on `Break`, propagates the
error immediately on `Fatal`, and carries an explicit finite maximum
attempt count, ending in the distinct budget-exhausted error when the
budget runs out.  The second component of the result is the number of
invocations of `attempt`. -/
def retry_loop (description : String) (maxAttempts : ℕ)
    (attempt : ℕ → RetryOutcome α ε) : Except (RetryError ε) α × ℕ :=
  retryAux attempt description 0 maxAttempts

/-- Per-step outcome oracle for `scrape_inner` in `scraper.rs`: one entry
per fallible browser interaction, in source order.  `closeToast` is the
best-effort dismissal of the login toast, whose result the source ignores. -/
structure InnerSteps where
  gotoLogin : Except String Unit
  loginQuery : Except String Unit
  loginSubmit : Except String Unit
  closeToast : Except String Unit
  gotoReport : Except String Unit
  controlQuery : Except String Unit
  setDataPeriod : Except String Unit
  paginationQuery : Except String Unit
  increasePageSize : Except String Unit

/-- Observable outcome of `scrape_inner`: its result, every report sent
into the report channel, and every fixed sleep performed (in seconds). -/
structure InnerRun where
  result : Except String Unit
  sent : List Report
  sleptSecs : List ℕ

/-- Sequencing of one fallible step inside `scrape_inner`: the `?`
operator returns early on error, with nothing sent and no sleep reached. -/
def stepE (r : Except String Unit) (k : InnerRun) : InnerRun :=
  match r with
  | .error e => ⟨.error e, [], []⟩
  | .ok () => k

/-- scrape_inner from `scraper.rs`, lines 159-229: go to the login page,
query and submit the login form, best-effort close the toast (result
ignored), go to the report page, query the control form, set the data
period, query pagination and increase the page size — then
`thread::sleep(Duration::from_secs(10000))` and return `Ok(())`.  The
per-target extraction loop is commented out in the source, so nothing is
ever sent into the report channel. -/
def scrape_inner (o : InnerSteps) : InnerRun :=
  stepE o.gotoLogin <|
  stepE o.loginQuery <|
  stepE o.loginSubmit <|
  let _ := o.closeToast
  stepE o.gotoReport <|
  stepE o.controlQuery <|
  stepE o.setDataPeriod <|
  stepE o.paginationQuery <|
  stepE o.increasePageSize ⟨.ok (), [], [10000]⟩

/-- Per-step outcome oracle for `scrape` in `scraper.rs`. -/
structure ScrapeSteps where
  assertCompatible : Except String Unit
  spawnDriver : Except String Unit
  newDriver : Except String Unit
  setWindowRect : Except String Unit
  inner : InnerSteps
  quit : Except String Unit
  tryWait : Except String Unit

/-- Observable outcome of `scrape`: its result, the reports sent, and
whether `driver.quit()` was ever invoked. -/
structure ScrapeRun where
  result : Except String Unit
  sent : List Report
  quitCalled : Bool

/-- scrape from `scraper.rs`, lines 43-72: check driver compatibility,
spawn the webdriver, create the session, set the window size, run
`scrape_inner` — each with `?`, so any failure returns early — and only
then call `driver.quit()` and `process.try_wait()`.  On an early return
the quit call is skipped. -/
def scrape (o : ScrapeSteps) : ScrapeRun :=
  match o.assertCompatible with
  | .error e => ⟨.error e, [], false⟩
  | .ok () =>
  match o.spawnDriver with
  | .error e => ⟨.error e, [], false⟩
  | .ok () =>
  match o.newDriver with
  | .error e => ⟨.error e, [], false⟩
  | .ok () =>
  match o.setWindowRect with
  | .error e => ⟨.error e, [], false⟩
  | .ok () =>
  let ir := scrape_inner o.inner
  match ir.result with
  | .error e => ⟨.error e, ir.sent, false⟩
  | .ok () =>
  match o.quit with
  | .error e => ⟨.error e, ir.sent, true⟩
  | .ok () =>
  match o.tryWait with
  | .error e => ⟨.error e, ir.sent, true⟩
  | .ok () => ⟨.ok (), ir.sent, true⟩

/-- Success test on a step outcome. -/
def isOk (r : Except String Unit) : Bool :=
  match r with
  | .ok _ => true
  | .error _ => false

/-- Modelled from the spec: the directory/leaf selection tree of §3 and
§4.4 (`TreeNode ::= Directory(children) | Leaf(target)`).  The source only
declares the probing components (`StationTree`, `StationLine.is_dir`) in
`components.rs`; the traversal itself is not under `src/`. -/
inductive TreeNode where
  | directory (children : List TreeNode) : TreeNode
  | leaf (target : Station) : TreeNode

/-- Depth-first leaves of a tree, in sibling order. -/
def TreeNode.leaves : TreeNode → List Station
  | .leaf t => [t]
  | .directory [] => []
  | .directory (c :: cs) => c.leaves ++ (TreeNode.directory cs).leaves

/-- Name comparison used to order targets (the commented-out driver sorts
stations with `a.name.cmp(&b.name)`; §4.4 sorts by display name). -/
def nameLe (a b : Station) : Bool :=
  decide (a.name ≤ b.name)

/-- Modelled from the spec: `flatten()` of §4.4 — depth-first traversal
producing every leaf exactly once, with the final sequence sorted by
display name; the function is not under `src/`. -/
def TreeNode.flatten (t : TreeNode) : List Station :=
  t.leaves.mergeSort nameLe

/-- Concrete report for station id "1". -/
def repA : Report :=
  ⟨⟨"1", "Alpha"⟩, [⟨"2024-01-01", none⟩]⟩

/-- Concrete report for station id "2". -/
def repB : Report :=
  ⟨⟨"2", "Beta"⟩, [⟨"2024-01-02", some 3⟩]⟩

/-- Write oracle that fails exactly on station id "1". -/
def wFailFirst : Report → Except String Unit :=
  fun r => if r.station.id = "1" then .error "disk full" else .ok ()

/-- Step oracle where every browser interaction succeeds. -/
def innerAllOk : InnerSteps :=
  ⟨.ok (), .ok (), .ok (), .ok (), .ok (), .ok (), .ok (), .ok (), .ok ()⟩

/-- Step oracle for a run whose first navigation fails; everything else
would succeed. -/
def scrapeStepsFail : ScrapeSteps :=
  ⟨.ok (), .ok (), .ok (), .ok (),
   ⟨.error "failed to go to login page", .ok (), .ok (), .ok (), .ok (),
    .ok (), .ok (), .ok (), .ok ()⟩,
   .ok (), .ok ()⟩

/-! Helper lemmas about the retry primitive. -/

theorem retryAux_break {α ε : Type} (attempt : ℕ → RetryOutcome α ε) (d : String) :
    ∀ (N k fuel : ℕ) (v : α), (∀ i, i < N → attempt (k + i) = .Continue) →
      attempt (k + N) = .Break v → N < fuel →
      retryAux attempt d k fuel = (.ok v, N + 1) := by
  intro N
  induction N with
  | zero =>
    intro k fuel v _ hbrk hfuel
    match fuel, hfuel with
    | fuel + 1, _ => simp only [retryAux]; rw [Nat.add_zero] at hbrk; rw [hbrk]
  | succ n ih =>
    intro k fuel v hcont hbrk hfuel
    match fuel, hfuel with
    | fuel + 1, hfuel =>
      have h0 : attempt k = .Continue := by
        have := hcont 0 (Nat.succ_pos n); rwa [Nat.add_zero] at this
      have hrec := ih (k + 1) fuel v
        (fun i hi => by rw [Nat.add_right_comm]; exact hcont (i + 1) (Nat.succ_lt_succ hi))
        (by rw [Nat.add_right_comm]; exact hbrk)
        (Nat.lt_of_succ_lt_succ hfuel)
      simp only [retryAux, h0, hrec]

theorem retryAux_fatal {α ε : Type} (attempt : ℕ → RetryOutcome α ε) (d : String) :
    ∀ (N k fuel : ℕ) (e : ε), (∀ i, i < N → attempt (k + i) = .Continue) →
      attempt (k + N) = .Fatal e → N < fuel →
      retryAux attempt d k fuel = (.error (.fatal e), N + 1) := by
  intro N
  induction N with
  | zero =>
    intro k fuel e _ hf hfuel
    match fuel, hfuel with
    | fuel + 1, _ => simp only [retryAux]; rw [Nat.add_zero] at hf; rw [hf]
  | succ n ih =>
    intro k fuel e hcont hf hfuel
    match fuel, hfuel with
    | fuel + 1, hfuel =>
      have h0 : attempt k = .Continue := by
        have := hcont 0 (Nat.succ_pos n); rwa [Nat.add_zero] at this
      have hrec := ih (k + 1) fuel e
        (fun i hi => by rw [Nat.add_right_comm]; exact hcont (i + 1) (Nat.succ_lt_succ hi))
        (by rw [Nat.add_right_comm]; exact hf)
        (Nat.lt_of_succ_lt_succ hfuel)
      simp only [retryAux, h0, hrec]

theorem retryAux_exhaust {α ε : Type} (attempt : ℕ → RetryOutcome α ε) (d : String) :
    ∀ (fuel k : ℕ), (∀ i, i < fuel → attempt (k + i) = .Continue) →
      retryAux attempt d k fuel = (.error (.exhausted d), fuel) := by
  intro fuel
  induction fuel with
  | zero => intro k _; rfl
  | succ n ih =>
    intro k hcont
    have h0 : attempt k = .Continue := by
      have := hcont 0 (Nat.succ_pos n); rwa [Nat.add_zero] at this
    have hrec := ih (k + 1)
      (fun i hi => by rw [Nat.add_right_comm]; exact hcont (i + 1) (Nat.succ_lt_succ hi))
    simp only [retryAux, h0, hrec]

theorem retryAux_count_le {α ε : Type} (attempt : ℕ → RetryOutcome α ε) (d : String) :
    ∀ (fuel k : ℕ), (retryAux attempt d k fuel).2 ≤ fuel := by
  intro fuel
  induction fuel with
  | zero => intro k; exact Nat.le_refl 0
  | succ n ih =>
    intro k
    simp only [retryAux]
    cases attempt k with
    | Continue => exact Nat.succ_le_succ (ih (k + 1))
    | Break v => exact Nat.succ_le_succ (Nat.zero_le n)
    | Fatal e => exact Nat.succ_le_succ (Nat.zero_le n)

/-- C2: for an attempt function returning Continue exactly N times and then
Break(v), retry_loop invokes the attempt exactly N+1 times and returns v;
an attempt function whose (N+1)-st outcome is Fatal(e) makes retry_loop
propagate the error e after exactly N+1 invocations — in particular a
first-call Fatal yields the error after exactly one invocation, and Break
and Fatal are always acted on immediately, with no further attempts. -/
theorem retry_loop_contract {α ε : Type} (d : String) (m : ℕ)
    (attempt : ℕ → RetryOutcome α ε) :
    (∀ (N : ℕ) (v : α), (∀ i, i < N → attempt i = .Continue) → attempt N = .Break v →
      N < m → retry_loop d m attempt = (.ok v, N + 1)) ∧
    (∀ (N : ℕ) (e : ε), (∀ i, i < N → attempt i = .Continue) → attempt N = .Fatal e →
      N < m → retry_loop d m attempt = (.error (.fatal e), N + 1)) := by
  constructor
  · intro N v hcont hbrk hm
    exact retryAux_break attempt d N 0 m v
      (fun i hi => by rw [Nat.zero_add]; exact hcont i hi)
      (by rw [Nat.zero_add]; exact hbrk) hm
  · intro N e hcont hf hm
    exact retryAux_fatal attempt d N 0 m e
      (fun i hi => by rw [Nat.zero_add]; exact hcont i hi)
      (by rw [Nat.zero_add]; exact hf) hm

/-- Witness for C2: a concrete attempt continuing twice then breaking with 7
takes exactly 3 invocations; a concrete first-call-fatal attempt yields the
fatal error after exactly one invocation. -/
theorem retry_loop_contract_witness :
    retry_loop "setting data time granularity" 10
        (fun i => if i < 2 then (.Continue : RetryOutcome ℕ String) else .Break 7)
      = (.ok 7, 3) ∧
    retry_loop "setting time period" 10
        (fun _ => (.Fatal "boom" : RetryOutcome ℕ String))
      = (.error (.fatal "boom"), 1) :=
  ⟨(retry_loop_contract "setting data time granularity" 10
      (fun i => if i < 2 then (.Continue : RetryOutcome ℕ String) else .Break 7)).1
      2 7 (by decide) (by decide) (by decide),
   (retry_loop_contract "setting time period" 10
      (fun _ => (.Fatal "boom" : RetryOutcome ℕ String))).2
      0 "boom" (by decide) (by decide) (by decide)⟩

/-- C6: the retry primitive used by every retry site in `components.rs`
(finding the control bar, setting the granularity, setting the time period,
finding the pagination controls, increasing the page size) carries an
explicit finite configurable attempt budget: it never invokes the attempt
more than the budget allows, a loop that never converges within the budget
terminates with the budget-exhausted error after exactly the budgeted
number of attempts, and that error is distinct from every fatal error. -/
theorem retry_loop_budget {α ε : Type} (d : String) (m : ℕ)
    (attempt : ℕ → RetryOutcome α ε) :
    (retry_loop d m attempt).2 ≤ m ∧
    ((∀ i, i < m → attempt i = .Continue) →
      retry_loop d m attempt = (.error (.exhausted d), m)) ∧
    (∀ e : ε, (RetryError.exhausted d : RetryError ε) ≠ .fatal e) := by
  refine ⟨retryAux_count_le attempt d m 0, ?_, ?_⟩
  · intro hcont
    exact retryAux_exhaust attempt d m 0
      (fun i hi => by rw [Nat.zero_add]; exact hcont i hi)
  · intro e h
    exact RetryError.noConfusion h

/-- Witness for C6: an attempt that never converges exhausts a budget of 3
after exactly 3 invocations and produces the distinct exhaustion error. -/
theorem retry_loop_budget_witness :
    (retry_loop "increasing page size" 3
        (fun _ => (.Continue : RetryOutcome ℕ String))).2 ≤ 3 ∧
    retry_loop "increasing page size" 3
        (fun _ => (.Continue : RetryOutcome ℕ String))
      = (.error (.exhausted "increasing page size"), 3) ∧
    (RetryError.exhausted "increasing page size" : RetryError String)
      ≠ .fatal "boom" := by
  have h := retry_loop_budget "increasing page size" 3
    (fun _ => (.Continue : RetryOutcome ℕ String))
  exact ⟨h.1, h.2.1 (by decide), h.2.2 "boom"⟩

/-- C1: evaluation of the code at the failing scenario.  The compiled
`scrape_inner` never sends anything into the report channel, whatever the
step outcomes: the per-target extraction loop is commented out, so in a run
where one target among several would fail, the remaining targets do not
appear in the final output (nothing does), contradicting the claimed
skip-and-advance isolation. -/
theorem scrape_inner_never_emits (o : InnerSteps) : (scrape_inner o).sent = [] := by
  rcases o with ⟨g, lq, ls, ct, gr, cq, sd, pq, ip⟩
  cases g <;> cases lq <;> cases ls <;> cases gr <;> cases cq <;>
    cases sd <;> cases pq <;> cases ip <;> rfl

/-- C9: in every run whose login and filter-configuration steps succeed,
`scrape_inner` returns Ok after sleeping 10000 seconds and sends no Report
at all: the report sink is never used. -/
theorem scrape_inner_sleeps_and_sends_nothing (o : InnerSteps)
    (h1 : o.gotoLogin = .ok ()) (h2 : o.loginQuery = .ok ())
    (h3 : o.loginSubmit = .ok ()) (h4 : o.gotoReport = .ok ())
    (h5 : o.controlQuery = .ok ()) (h6 : o.setDataPeriod = .ok ())
    (h7 : o.paginationQuery = .ok ()) (h8 : o.increasePageSize = .ok ()) :
    (scrape_inner o).result = .ok () ∧ (scrape_inner o).sent = [] ∧
      (scrape_inner o).sleptSecs = [10000] := by
  rcases o with ⟨g, lq, ls, ct, gr, cq, sd, pq, ip⟩
  simp only at h1 h2 h3 h4 h5 h6 h7 h8
  subst h1 h2 h3 h4 h5 h6 h7 h8
  exact ⟨rfl, rfl, rfl⟩

/-- Witness for C9: a run where every step succeeds returns Ok, sends
nothing, and sleeps 10000 seconds. -/
theorem scrape_inner_sleeps_witness :
    (scrape_inner innerAllOk).result = .ok () ∧ (scrape_inner innerAllOk).sent = [] ∧
      (scrape_inner innerAllOk).sleptSecs = [10000] :=
  scrape_inner_sleeps_and_sends_nothing innerAllOk rfl rfl rfl rfl rfl rfl rfl rfl

/-- C8 counterexample: in the concrete run where navigation to the login
page fails (and every other step would succeed), `driver.quit()` is never
invoked — the session is not closed at run end, refuting the claim that it
is closed regardless of success or failure. -/
theorem scrape_quit_skipped_on_failure :
    (scrape scrapeStepsFail).quitCalled = false ∧
      (scrape scrapeStepsFail).result = .error "failed to go to login page" :=
  ⟨rfl, rfl⟩

/-- C8 amended: `driver.quit()` is invoked exactly on the runs in which
driver-compatibility checking, webdriver spawning, session creation, window
sizing, and the whole of `scrape_inner` succeed; on any earlier failure the
`?` operator returns early and the quit call is skipped. -/
theorem scrape_quit_iff_success (o : ScrapeSteps) :
    (scrape o).quitCalled =
      (isOk o.assertCompatible && isOk o.spawnDriver && isOk o.newDriver &&
        isOk o.setWindowRect && isOk (scrape_inner o.inner).result) := by
  rcases o with ⟨a, s, n, w, inn, q, t⟩
  rcases h : (scrape_inner inn).result with e | u <;>
    cases a <;> cases s <;> cases n <;> cases w <;> cases q <;> cases t <;>
      simp [scrape, isOk, h]

/-- C3: for every nested directory/leaf tree, flatten yields every leaf
exactly once (it is a permutation of the depth-first leaf sequence),
regardless of nesting depth or sibling order, and the output is sorted by
display name. -/
theorem flatten_every_leaf_once_sorted (t : TreeNode) :
    t.flatten.Perm t.leaves ∧
      t.flatten.Pairwise (fun a b => nameLe a b = true) := by
  constructor
  · exact List.mergeSort_perm t.leaves nameLe
  · exact List.sorted_mergeSort
      (fun a b c h1 h2 => by
        simp only [nameLe, decide_eq_true_eq] at h1 h2 ⊢
        exact le_trans h1 h2)
      (fun a b => by
        simp only [nameLe, Bool.or_eq_true, decide_eq_true_eq]
        exact le_total a.name b.name)
      t.leaves

/-! Helper lemmas about the bounded report channel. -/

theorem sendAll_ok : ∀ (rs q : List Report),
    q.length + rs.length ≤ channelCapacity → sendAll q rs = some (q ++ rs) := by
  intro rs
  induction rs with
  | nil => intro q _; simp [sendAll]
  | cons r rs ih =>
    intro q h
    have hl : q.length + (rs.length + 1) ≤ channelCapacity := by
      simpa using h
    have hq : q.length < channelCapacity := by omega
    simp only [sendAll, trySend, if_pos hq]
    rw [ih (q ++ [r]) (by simp only [List.length_append, List.length_singleton]; omega)]
    simp

theorem sendAll_blocked : ∀ (rs q : List Report),
    q.length ≤ channelCapacity → channelCapacity < q.length + rs.length →
    sendAll q rs = none := by
  intro rs
  induction rs with
  | nil =>
    intro q h1 h2
    exfalso
    simp only [List.length_nil, Nat.add_zero] at h2
    omega
  | cons r rs ih =>
    intro q h1 h2
    by_cases hq : q.length < channelCapacity
    · simp only [sendAll, trySend, if_pos hq]
      have hlen : (q ++ [r]).length = q.length + 1 := by
        simp
      have h2l : channelCapacity < q.length + (rs.length + 1) := by
        simpa using h2
      exact ih (q ++ [r]) (by omega) (by rw [hlen]; omega)
    · simp only [sendAll, trySend, if_neg hq]

/-- C5: the queue between producer and consumer has capacity exactly 20: a
batch of 20 Reports is emitted without blocking, a batch of 21 Reports with
no concurrent consumption blocks, an emission into a full queue blocks, and
after the consumer removes one item from a full queue the pending emission
succeeds. -/
theorem channel_capacity_backpressure :
    channelCapacity = 20 ∧
    (∀ rs : List Report, rs.length = 20 → sendAll [] rs = some rs) ∧
    (∀ rs : List Report, rs.length = 21 → sendAll [] rs = none) ∧
    (∀ (q : List Report) (r : Report), q.length = channelCapacity →
      trySend q r = none) ∧
    (∀ (q rest : List Report) (x r : Report), q.length = channelCapacity →
      recv q = some (x, rest) → trySend rest r = some (rest ++ [r])) := by
  refine ⟨rfl, ?_, ?_, ?_, ?_⟩
  · intro rs h
    have := sendAll_ok rs []
      (by simp only [List.length_nil, Nat.zero_add, h, channelCapacity]; omega)
    simpa using this
  · intro rs h
    exact sendAll_blocked rs [] (by simp [channelCapacity])
      (by simp only [List.length_nil, Nat.zero_add, h, channelCapacity]; omega)
  · intro q r h
    simp [trySend, h]
  · intro q rest x r hq hr
    cases q with
    | nil => exact absurd hr (by simp [recv])
    | cons y tl =>
      simp only [recv, Option.some.injEq, Prod.mk.injEq] at hr
      obtain ⟨-, hrest⟩ := hr
      have htl : tl.length < channelCapacity := by
        simp only [List.length_cons] at hq; omega
      rw [← hrest]
      simp [trySend, htl]

/-- Witness for C5: with concrete reports, 20 sends succeed, the 21st send
blocks, a send into the full queue blocks, and a send after one receive
from the full queue succeeds. -/
theorem channel_capacity_backpressure_witness :
    sendAll [] (List.replicate 20 repA) = some (List.replicate 20 repA) ∧
    sendAll [] (List.replicate 21 repA) = none ∧
    trySend (List.replicate 20 repA) repB = none ∧
    trySend (List.replicate 19 repA) repB
      = some (List.replicate 19 repA ++ [repB]) := by
  have h := channel_capacity_backpressure
  refine ⟨h.2.1 _ (by simp), h.2.2.1 _ (by simp),
    h.2.2.2.1 _ repB (by simp [channelCapacity]), ?_⟩
  exact h.2.2.2.2 (List.replicate 20 repA) (List.replicate 19 repA) repA repB
    (by simp [channelCapacity]) rfl

/-! Helper lemmas about the export consumer. -/

theorem exportAux_all_ok (w : Report → Except String Unit) (format : Record → String)
    (directory ext : String) :
    ∀ (reports : List Report) (fs : String → Option String),
      (∀ r ∈ reports, w r = .ok ()) →
      (exportAux w format directory ext fs reports).attempted = reports ∧
      (exportAux w format directory ext fs reports).result = .ok () := by
  intro reports
  induction reports with
  | nil => intro fs _; exact ⟨rfl, rfl⟩
  | cons rep rest ih =>
    intro fs h
    have hrep : w rep = .ok () := h rep (List.mem_cons_self rep rest)
    have hrest := ih
      (writeFs fs (filePath directory ext rep.station) (reportContent format rep))
      (fun r hr => h r (List.mem_cons_of_mem rep hr))
    simp only [exportAux, hrep]
    exact ⟨by rw [hrest.1], hrest.2⟩

theorem exportAux_first_error (w : Report → Except String Unit)
    (format : Record → String) (directory ext : String) (rep : Report) (e : String)
    (hrep : w rep = .error e) :
    ∀ (pre : List Report) (post : List Report) (fs : String → Option String),
      (∀ r ∈ pre, w r = .ok ()) →
      (exportAux w format directory ext fs (pre ++ rep :: post)).attempted
        = pre ++ [rep] ∧
      (exportAux w format directory ext fs (pre ++ rep :: post)).result
        = .error e := by
  intro pre
  induction pre with
  | nil =>
    intro post fs _
    simp [exportAux, hrep]
  | cons p pre ih =>
    intro post fs h
    have hp : w p = .ok () := h p (List.mem_cons_self p _)
    have hrest := ih post
      (writeFs fs (filePath directory ext p.station) (reportContent format p))
      (fun r hr => h r (List.mem_cons_of_mem p hr))
    simp only [List.cons_append, exportAux, hp]
    exact ⟨congrArg (fun l => p :: l) hrest.1, hrest.2⟩

/-- C4 counterexample: with two concrete reports where the first write
fails and the second would succeed, the consumer short-circuits on the
first error — the second report's file is never written, its write is never
even started, and the pipeline result is the first error.  This refutes the
claim that a failing write never prevents any other target's Report from
being written and that the error is recorded only after every other write
has finished. -/
theorem export_failure_drops_later_reports :
    (export_to_file wFailFirst Record.to_csv "report" "csv" [repA, repB]).fs
        (filePath "report" "csv" repB.station) = none ∧
    repB ∉ (export_to_file wFailFirst Record.to_csv "report" "csv" [repA, repB]).attempted ∧
    (export_to_file wFailFirst Record.to_csv "report" "csv" [repA, repB]).result
      = .error "disk full" := by
  refine ⟨rfl, ?_, rfl⟩
  decide

/-- C4 amended: the consumer handles reports strictly sequentially — each
report's spawned write is awaited before the next report is dequeued; when
every write succeeds all reports are written and the result is Ok, and on
the first failing write the pipeline stops with that error, never starting
the writes of the remaining reports. -/
theorem export_to_file_sequential (w : Report → Except String Unit)
    (format : Record → String) (directory ext : String) :
    (∀ reports : List Report, (∀ r ∈ reports, w r = .ok ()) →
      (export_to_file w format directory ext reports).attempted = reports ∧
      (export_to_file w format directory ext reports).result = .ok ()) ∧
    (∀ (pre post : List Report) (rep : Report) (e : String),
      (∀ r ∈ pre, w r = .ok ()) → w rep = .error e →
      (export_to_file w format directory ext (pre ++ rep :: post)).attempted
        = pre ++ [rep] ∧
      (export_to_file w format directory ext (pre ++ rep :: post)).result
        = .error e) := by
  constructor
  · intro reports h
    exact exportAux_all_ok w format directory ext reports _ h
  · intro pre post rep e h hrep
    exact exportAux_first_error w format directory ext rep e hrep pre post _ h

/-- Witness for C4 (amended): a run of one succeeding report completes with
all reports attempted; a run where the second report's write fails attempts
exactly the first two and stops with the error. -/
theorem export_to_file_sequential_witness :
    (export_to_file wFailFirst Record.to_csv "report" "csv" [repB]).attempted
      = [repB] ∧
    (export_to_file wFailFirst Record.to_csv "report" "csv" [repB]).result
      = .ok () ∧
    (export_to_file wFailFirst Record.to_csv "report" "csv" [repB, repA]).attempted
      = [repB, repA] ∧
    (export_to_file wFailFirst Record.to_csv "report" "csv" [repB, repA]).result
      = .error "disk full" := by
  have h := export_to_file_sequential wFailFirst Record.to_csv "report" "csv"
  have hok : ∀ r ∈ [repB], wFailFirst r = .ok () := by
    intro r hr
    simp only [List.mem_singleton] at hr
    subst hr
    rfl
  have h1 := h.1 [repB] hok
  have h2 := h.2 [repB] [] repA "disk full" hok rfl
  exact ⟨h1.1, h1.2, by simpa using h2.1, by simpa using h2.2⟩

/-- C10: the destination path is the output directory joined with the
station's display name plus the format's extension; station identity is by
id, so two stations with equal names but different ids are distinct
stations written to the same path, and the later write replaces the earlier
file's content. -/
theorem export_same_name_same_path (w : Report → Except String Unit)
    (format : Record → String) (directory ext : String)
    (s1 s2 : Station) (recs1 recs2 : List Record)
    (hname : s1.name = s2.name) (hid : s1.id ≠ s2.id)
    (hw1 : w ⟨s1, recs1⟩ = .ok ()) (hw2 : w ⟨s2, recs2⟩ = .ok ()) :
    Station.eqById s1 s2 = false ∧
    filePath directory ext s2 = filePath directory ext s1 ∧
    (export_to_file w format directory ext [⟨s1, recs1⟩, ⟨s2, recs2⟩]).fs
        (filePath directory ext s1)
      = some (reportContent format ⟨s2, recs2⟩) := by
  have hpath : filePath directory ext s2 = filePath directory ext s1 := by
    simp [filePath, hname]
  refine ⟨?_, hpath, ?_⟩
  · simp only [Station.eqById, beq_eq_false_iff_ne, ne_eq]
    exact hid
  · simp only [export_to_file, exportAux, hw1, hw2, writeFs]
    rw [if_pos hpath.symm]

/-- Witness for C10: two concrete stations named "Same" with ids "1" and
"2" compare unequal by id, map to the same path, and the second report's
content is what that path finally holds. -/
theorem export_same_name_same_path_witness :
    Station.eqById ⟨"1", "Same"⟩ ⟨"2", "Same"⟩ = false ∧
    filePath "report" "log" ⟨"2", "Same"⟩ = filePath "report" "log" ⟨"1", "Same"⟩ ∧
    (export_to_file (fun _ => .ok ()) Record.display "report" "log"
        [⟨⟨"1", "Same"⟩, [⟨"2024-01-01", none⟩]⟩,
         ⟨⟨"2", "Same"⟩, [⟨"2024-01-02", some 3⟩]⟩]).fs
        (filePath "report" "log" ⟨"1", "Same"⟩)
      = some (reportContent Record.display ⟨⟨"2", "Same"⟩, [⟨"2024-01-02", some 3⟩]⟩) :=
  export_same_name_same_path (fun _ => .ok ()) Record.display "report" "log"
    ⟨"1", "Same"⟩ ⟨"2", "Same"⟩ [⟨"2024-01-01", none⟩] [⟨"2024-01-02", some 3⟩]
    rfl (by decide) rfl rfl

/-- C7: an absent yield is a distinct in-memory value from a numeric zero,
and renders as the literal "0" in the Display/log form, the values form,
and the CSV form; a present yield of 12.5 renders as "12.5" in all three. -/
theorem record_yield_rendering (d : String) :
    (Record.mk d none ≠ Record.mk d (some 0)) ∧
    (Record.mk d none).to_value = "0" ∧
    (Record.mk d none).to_csv = d ++ "; " ++ "0" ∧
    (Record.mk d none).display = "[" ++ d ++ "]: " ++ "0" ∧
    (Record.mk d (some 12.5)).to_value = "12.5" ∧
    (Record.mk d (some 12.5)).to_csv = d ++ "; " ++ "12.5" ∧
    (Record.mk d (some 12.5)).display = "[" ++ d ++ "]: " ++ "12.5" := by
  have h125 : (Record.mk d (some 12.5)).fmt_yield = "12.5" := by
    have h : (12.5 : ℚ) = mkRat 25 2 := by norm_num [mkRat]
    simp only [Record.fmt_yield, h]
    rfl
  refine ⟨by simp, rfl, rfl, rfl, ?_, ?_, ?_⟩ <;>
    simp only [Record.to_value, Record.to_csv, Record.display, h125]

end Srss
